import Mathlib

/-!
# Boatswain: storage layer and option validation

A shallow embedding of the Go sources of the boatswain repository:

* `cmd/boatswain-controller-manager/app/options/options.go` (`CMServer.Validate`),
* `pkg/registry/boatswain/cluster/storage.go` (cluster storage descriptor and status view),
* `pkg/registry/boatswain/rest/storage_servicecatalog.go` (`StorageProvider`),
* `pkg/apis/boatswain/validation/nodegroup.go` (`ValidateNodeGroup`).

Go strings are embedded as Lean `String`s. Every byte the embedded code inspects
(`-`, `*`, `/`, `%`, `.`) is a one-byte ASCII character, so slicing off one byte and
dropping one character coincide on them.
-/

namespace Boatswain

/-! ## Go standard library helpers -/

namespace strings

/-- Go `strings.HasPrefix(s, prefix)`. -/
def HasPrefix (s pre : String) : Bool :=
  pre.toList.isPrefixOf s.toList

/-- Go `strings.Contains(s, substr)`. -/
def Contains (s substr : String) : Bool :=
  decide (substr.toList <:+: s.toList)

end strings

/-- Go slice expression `s[n:]` on a string. -/
def sliceFrom (s : String) (n : Nat) : String :=
  String.mk (s.toList.drop n)

/-! ## Controller manager options (`options.go`) -/

namespace options

/-- The fields of `componentconfig.ControllerManagerConfiguration` that `NewCMServer`
sets; the type declaration itself lives outside the embedded sources. -/
structure ControllerManagerConfiguration where
  Controllers : List String
  Address : String
  Port : Int
  ContentType : String
  K8sKubeconfigPath : String
  BoatswainKubeconfigPath : String
  ConcurrentClusterSyncs : Int
  ConcurrentNodeGroupSyncs : Int
  ConcurrentNodeSyncs : Int
  ConcurrentMasterNodeSyncs : Int
  LeaderElect : Bool
  LeaderElectionNamespace : String
  EnableProfiling : Bool
  EnableContentionProfiling : Bool
  deriving DecidableEq, Repr

/-- Go `CMServer`: the main context object for the controller manager. -/
structure CMServer extends ControllerManagerConfiguration
  deriving DecidableEq, Repr

def defaultContentType : String := "application/json"
def defaultBindAddress : String := "0.0.0.0"
def defaultPort : Int := 10000
def defaultK8sKubeconfigPath : String := "./kubeconfig"
def defaultBoatswainKubeconfigPath : String := "./boatswain-kubeconfig"
def defaultConcurrentSyncs : Int := 5
def defaultLeaderElectionNamespace : String := "kube-system"

/-- Go `NewCMServer`: a CMServer with the default config. -/
def NewCMServer : CMServer :=
  { Controllers := ["*"]
    Address := defaultBindAddress
    Port := defaultPort
    ContentType := defaultContentType
    K8sKubeconfigPath := defaultK8sKubeconfigPath
    BoatswainKubeconfigPath := defaultBoatswainKubeconfigPath
    ConcurrentClusterSyncs := defaultConcurrentSyncs
    ConcurrentNodeGroupSyncs := defaultConcurrentSyncs
    ConcurrentNodeSyncs := defaultConcurrentSyncs
    ConcurrentMasterNodeSyncs := defaultConcurrentSyncs
    LeaderElect := true
    LeaderElectionNamespace := defaultLeaderElectionNamespace
    EnableProfiling := true
    EnableContentionProfiling := false }

/-- The error built by `fmt.Errorf("%q is not in the list of known controllers", controller)`;
it is identified by the controller name it quotes. -/
inductive ControllerError where
  | notKnown (controller : String)
  deriving DecidableEq, Repr

/-- Go `sets.NewString(items...)`: the set is represented by its items. -/
def NewString (items : List String) : List String := items

/-- Go `sets.String.Has`. -/
def Has (set : List String) (item : String) : Bool := decide (item ∈ set)

/-- Go `utilerrors.NewAggregate`: `nil` for an empty list, the aggregate otherwise. -/
def NewAggregate (errs : List ControllerError) : Option (List ControllerError) :=
  if errs.isEmpty then none else some errs

/-- The body of the `for _, controller := range s.Controllers` loop of `Validate`,
threading the accumulated `errs`. -/
def validateLoop (allControllersSet : List String) :
    List String → List ControllerError → List ControllerError
  | [], errs => errs
  | controller :: rest, errs =>
    if controller = "*" then
      validateLoop allControllersSet rest errs
    else
      let controller :=
        if strings.HasPrefix controller "-" then sliceFrom controller 1 else controller
      if !Has allControllersSet controller then
        validateLoop allControllersSet rest (errs ++ [ControllerError.notKnown controller])
      else
        validateLoop allControllersSet rest errs

/-- Go `(*CMServer).Validate`. -/
def Validate (s : CMServer) (allControllers disabledByDefaultControllers : List String) :
    Option (List ControllerError) :=
  let _ := disabledByDefaultControllers
  let allControllersSet := NewString allControllers
  NewAggregate (validateLoop allControllersSet s.Controllers [])

end options

/-! ## API machinery (`k8s.io/apimachinery`, `k8s.io/apiserver`)

The parts of the vendored libraries that the embedded sources call. -/

namespace metav1

/-- Go `metav1.TypeMeta`. -/
structure TypeMeta where
  Kind : String := ""
  APIVersion : String := ""
  deriving DecidableEq, Repr

/-- Go `metav1.Initializers`: the pending initializers of an object. -/
structure Initializers where
  Pending : List String := []
  deriving DecidableEq, Repr

/-- Go `metav1.ObjectMeta`. Maps are association lists (`nil` is `[]`); the
`Initializers` and `DeletionGracePeriodSeconds` pointers are `Option`s; the opaque
resource version is a number, `0` standing for the unset version. A delete request on an
object with finalizers sets `DeletionTimestamp` and a zero `DeletionGracePeriodSeconds`
and leaves the object stored. -/
structure ObjectMeta where
  Name : String := ""
  GenerateName : String := ""
  Namespace : String := ""
  UID : String := ""
  ResourceVersion : Nat := 0
  Generation : Int := 0
  DeletionTimestamp : Option Nat := none
  DeletionGracePeriodSeconds : Option Int := none
  Labels : List (String × String) := []
  Annotations : List (String × String) := []
  Initializers : Option Initializers := none
  Finalizers : List String := []
  ClusterName : String := ""
  deriving DecidableEq, Repr

end metav1

namespace labels

/-- Go `labels.Set`. -/
abbrev Set := List (String × String)

/-- Go interface `labels.Selector`, by the two methods the storage layer calls. -/
structure Selector where
  Matches : Set → Bool
  Empty : Bool

/-- Go `labels.Everything()`. -/
def Everything : Selector := { Matches := fun _ => true, Empty := true }

/-- The selector of `labels.SelectorFromSet` for a single pair `key = value`: a
requirement with operator `Equals`, which holds when the key is present with that value. -/
def SelectorFromPair (key value : String) : Selector :=
  { Matches := fun ls => ls.lookup key == some value, Empty := false }

end labels

namespace fields

/-- Go `fields.Set`. -/
abbrev Set := List (String × String)

/-- Go interface `fields.Selector`, by the two methods the storage layer calls. -/
structure Selector where
  Matches : Set → Bool
  Empty : Bool

/-- Go `fields.Everything()`. -/
def Everything : Selector := { Matches := fun _ => true, Empty := true }

/-- Go `fields.OneTermEqualSelector(k, v)`: a missing field compares as the empty value. -/
def OneTermEqualSelector (k v : String) : Selector :=
  { Matches := fun fs => (fs.lookup k).getD "" == v, Empty := false }

end fields

/-- Go map assignment `m[k] = v` on an association list. -/
def mapSet (m : List (String × String)) (k v : String) : List (String × String) :=
  if (m.lookup k).isSome then m.map (fun kv => if kv.1 = k then (k, v) else kv)
  else m ++ [(k, v)]

namespace generic

/-- Go `generic.ObjectMetaFieldsSet`. -/
def ObjectMetaFieldsSet (objectMeta : metav1.ObjectMeta) (hasNamespaceField : Bool) :
    fields.Set :=
  if !hasNamespaceField then
    [("metadata.name", objectMeta.Name)]
  else
    [("metadata.name", objectMeta.Name), ("metadata.namespace", objectMeta.Namespace)]

/-- Go `generic.MergeFieldsSets`: assigns every entry of `fragment` into `source`. -/
def MergeFieldsSets (source fragment : fields.Set) : fields.Set :=
  fragment.foldl (fun src kv => mapSet src kv.1 kv.2) source

end generic

/-- Go `genericapirequest.Context`, by the namespace value it may carry
(`NamespaceFrom` returns it together with the presence flag). -/
structure Context where
  Namespace : Option String := none
  deriving DecidableEq, Repr

/-- Go `genericapirequest.NamespaceFrom`. -/
def NamespaceFrom (ctx : Context) : String × Bool :=
  match ctx.Namespace with
  | some ns => (ns, true)
  | none => ("", false)

/-- Go `field.ErrorType`. -/
inductive ErrorType where
  | Required
  | Invalid
  | Forbidden
  deriving DecidableEq, Repr

/-- Go `field.Error` (its field `Type` is `ErrType` here), with the path rendered as a
dotted string. -/
structure FieldError where
  ErrType : ErrorType
  Field : String
  BadValue : String
  Detail : String
  deriving DecidableEq, Repr

/-- Go `field.ErrorList`. -/
abbrev ErrorList := List FieldError

/-- The API status errors the store returns (`k8s.io/apimachinery/pkg/api/errors`). -/
inductive StatusError where
  | BadRequest (message : String)
  | NotFound (resource name : String)
  | Conflict (resource name : String)
  | Invalid (resource name : String) (errs : ErrorList)
  | Internal (message : String)
  deriving DecidableEq, Repr

namespace path

def NameMayNotBe : List String := [".", ".."]

def NameMayNotContain : List String := ["/", "%"]

/-- Go `path.IsValidPathSegmentName`: the list of reasons `name` is not a valid path
segment, empty when it is valid. -/
def IsValidPathSegmentName (name : String) : List String :=
  match NameMayNotBe.find? (fun illegalName => name == illegalName) with
  | some illegalName => ["may not be '" ++ illegalName ++ "'"]
  | none =>
    NameMayNotContain.filterMap fun illegalContent =>
      if strings.Contains name illegalContent then
        some ("may not contain '" ++ illegalContent ++ "'")
      else none

end path

namespace registry

/-- Go `registry.NamespaceKeyRootFunc`. -/
def NamespaceKeyRootFunc (ctx : Context) (pfx : String) : String :=
  let key := pfx
  let (ns, ok) := NamespaceFrom ctx
  if ok && ns.length > 0 then key ++ "/" ++ ns else key

/-- Go `registry.NamespaceKeyFunc`. -/
def NamespaceKeyFunc (ctx : Context) (pfx : String) (name : String) :
    Except StatusError String :=
  let key := NamespaceKeyRootFunc ctx pfx
  let (ns, ok) := NamespaceFrom ctx
  if !ok || ns.length == 0 then
    .error (.BadRequest "Namespace parameter required.")
  else if name.length == 0 then
    .error (.BadRequest "Name parameter required.")
  else
    let msgs := path.IsValidPathSegmentName name
    if msgs.length != 0 then
      .error (.BadRequest ("Name parameter invalid: " ++ name ++ ": " ++ ";".intercalate msgs))
    else
      .ok (key ++ "/" ++ name)

end registry

/-! ## API types (`pkg/apis/boatswain`)

The type declarations live outside the embedded sources. `ClusterSpec` and
`ClusterStatus` are the type parameters `S` and `T`; their zero values are `default`. -/

namespace boatswain

/-- Go `boatswain.Cluster`. -/
structure Cluster (S T : Type) where
  TypeMeta : metav1.TypeMeta := {}
  ObjectMeta : metav1.ObjectMeta := {}
  Spec : S
  Status : T
  deriving DecidableEq, Repr

/-- Go `boatswain.ClusterList`. -/
structure ClusterList (S T : Type) where
  TypeMeta : metav1.TypeMeta := {}
  Items : List (Cluster S T) := []
  deriving DecidableEq, Repr

/-- Go `schema.GroupResource`. -/
structure GroupResource where
  Group : String
  Resource : String
  deriving DecidableEq, Repr

/-- Go `boatswain.Resource`, for the API group name `groupName`. -/
def Resource (groupName resource : String) : GroupResource :=
  { Group := groupName, Resource := resource }

end boatswain

/-- Go interface `runtime.Object`, as the closed set of implementations the cluster
package tells apart: a `*boatswain.Cluster`, a `*boatswain.ClusterList`, and objects of
any other kind. -/
inductive Object (S T : Type) where
  | cluster (c : boatswain.Cluster S T)
  | clusterList (l : boatswain.ClusterList S T)
  | other (kind : String)
  deriving DecidableEq, Repr

/-! ## Selection predicates (`k8s.io/apiserver/pkg/storage`) -/

namespace storage

/-- Go `storage.SelectionPredicate`. -/
structure SelectionPredicate (S T : Type) where
  Label : labels.Selector
  Field : fields.Selector
  IncludeUninitialized : Bool := false
  GetAttrs : Object S T → Except String (labels.Set × fields.Set × Bool)

/-- Go `(*SelectionPredicate).Empty`: true when the predicate performs no filtering. -/
def SelectionPredicate.Empty {S T : Type} (s : SelectionPredicate S T) : Bool :=
  s.Label.Empty && s.Field.Empty && s.IncludeUninitialized

/-- Go `(*SelectionPredicate).Matches`: an object whose attributes report pending
initializers is rejected unless `IncludeUninitialized` is set. -/
def SelectionPredicate.Matches {S T : Type} (s : SelectionPredicate S T) (obj : Object S T) :
    Except String Bool :=
  if s.Empty then .ok true
  else
    match s.GetAttrs obj with
    | .error err => .error err
    | .ok (labels, fields, uninitialized) =>
      if !s.IncludeUninitialized && uninitialized then .ok false
      else
        let matched := s.Label.Matches labels
        let matched := if matched then matched && s.Field.Matches fields else matched
        .ok matched

/-- The filter the storage applies to the decoded objects of a list: an object is kept
when `Matches` returns true without an error. -/
def filterList {S T : Type} (pred : SelectionPredicate S T) (objs : List (Object S T)) :
    List (Object S T) :=
  objs.filter fun obj =>
    match pred.Matches obj with
    | .ok matched => matched
    | .error _ => false

end storage

/-! ## Cluster registry (`pkg/registry/boatswain/cluster/storage.go`) -/

namespace cluster

def errNotACluster : String := "not a cluster"

/-- Go `NewSingular`: a new shell of a cluster with the given namespace and name. -/
def NewSingular {S T : Type} [Inhabited S] [Inhabited T] (ns name : String) : Object S T :=
  .cluster
    { TypeMeta := { Kind := "Cluster" }
      ObjectMeta := { Namespace := ns, Name := name }
      Spec := default
      Status := default }

/-- Go `EmptyObject`: an empty cluster. -/
def EmptyObject {S T : Type} [Inhabited S] [Inhabited T] : Object S T :=
  .cluster { Spec := default, Status := default }

/-- Go `NewList`: a new shell of a cluster list. -/
def NewList {S T : Type} : Object S T :=
  .clusterList { TypeMeta := { Kind := "ClusterList" }, Items := [] }

/-- Go `CheckObject`: a non-nil error if `obj` is not a cluster object. -/
def CheckObject {S T : Type} (obj : Object S T) : Option String :=
  match obj with
  | .cluster _ => none
  | _ => some errNotACluster

/-- Go `toSelectableFields`. -/
def toSelectableFields {S T : Type} (cluster : boatswain.Cluster S T) : fields.Set :=
  let objectMetaFieldsSet := generic.ObjectMetaFieldsSet cluster.ObjectMeta true
  generic.MergeFieldsSets objectMetaFieldsSet []

/-- Go `GetAttrs`: labels and fields of a given object for filtering purposes. -/
def GetAttrs {S T : Type} (obj : Object S T) :
    Except String (labels.Set × fields.Set × Bool) :=
  match obj with
  | .cluster cluster =>
    .ok (cluster.ObjectMeta.Labels, toSelectableFields cluster,
      cluster.ObjectMeta.Initializers.isSome)
  | _ => .error "given object is not a Cluster"

/-- Go `Match`. -/
def Match {S T : Type} (label : labels.Selector) (field : fields.Selector) :
    storage.SelectionPredicate S T :=
  { Label := label
    Field := field
    GetAttrs := GetAttrs }

end cluster

/-! ## Generic store (`k8s.io/apiserver/pkg/registry/generic/registry`) -/

namespace storagebackend

/-- Go `storagebackend.Config`, by its path prefix. -/
structure Config where
  Prefix : String := ""
  deriving DecidableEq, Repr

end storagebackend

namespace storage

/-- The handle of Go interface `storage.Interface` that a storage decorator returns: it
records the backend configuration and the resource prefix it was opened for. The
contents of the key-value store are passed explicitly, as a `Backend`. -/
structure Interface where
  Config : storagebackend.Config
  ResourcePrefix : String
  deriving DecidableEq, Repr

/-- The contents of the key-value store behind a `storage.Interface`: the revision of
the last write and the live objects by key. -/
structure Backend (S T : Type) where
  Revision : Nat := 0
  Items : List (String × boatswain.Cluster S T) := []
  deriving DecidableEq, Repr

/-- The object stored under `key`, if any. -/
def Backend.get {S T : Type} (b : Backend S T) (key : String) :
    Option (boatswain.Cluster S T) :=
  b.Items.lookup key

/-- Writes `obj` under `key` at the next revision, which becomes the object's resource
version. -/
def Backend.put {S T : Type} (b : Backend S T) (key : String) (obj : boatswain.Cluster S T) :
    Backend S T :=
  let rev := b.Revision + 1
  let stored : boatswain.Cluster S T :=
    { obj with ObjectMeta := { obj.ObjectMeta with ResourceVersion := rev } }
  { Revision := rev
    Items := (key, stored) :: b.Items.filter (fun kv => kv.1 != key) }

/-- Removes the object stored under `key`, at the next revision. -/
def Backend.delete {S T : Type} (b : Backend S T) (key : String) : Backend S T :=
  { Revision := b.Revision + 1
    Items := b.Items.filter (fun kv => kv.1 != key) }

end storage

namespace generic

/-- Go `generic.RESTOptions`. The `Decorator` receives the storage configuration, the
object type and the resource prefix. -/
structure RESTOptions (S T : Type) where
  StorageConfig : storagebackend.Config
  Decorator : storagebackend.Config → Object S T → String → storage.Interface
  EnableGarbageCollection : Bool
  DeleteCollectionWorkers : Nat
  ResourcePrefix : String

/-- Go `generic.UndecoratedStorage`. -/
def UndecoratedStorage {S T : Type} (config : storagebackend.Config) (_objectType : Object S T)
    (resourcePrefix : String) : storage.Interface :=
  { Config := config, ResourcePrefix := resourcePrefix }

/-- Go `generic.StoreOptions`. -/
structure StoreOptions (S T : Type) where
  RESTOptions : RESTOptions S T
  AttrFunc : Object S T → Except String (labels.Set × fields.Set × Bool)

end generic

namespace rest

/-- Go interfaces `rest.RESTCreateStrategy`, `rest.RESTUpdateStrategy` and
`rest.RESTDeleteStrategy`, by the methods the update path calls. `PrepareForUpdate new old`
returns the object to validate and store. -/
structure Strategy (S T : Type) where
  NamespaceScoped : Bool
  AllowUnconditionalUpdate : Bool
  PrepareForUpdate : boatswain.Cluster S T → boatswain.Cluster S T → boatswain.Cluster S T
  ValidateUpdate : boatswain.Cluster S T → boatswain.Cluster S T → ErrorList

/-- Go interface `rest.UpdatedObjectInfo`: given the stored object it returns the object
the caller wants stored. -/
structure UpdatedObjectInfo (S T : Type) where
  UpdatedObject : Context → boatswain.Cluster S T → Except StatusError (boatswain.Cluster S T)

end rest

namespace registry

/-- Go `registry.Store`, by the fields `cluster.NewStorage` sets. -/
structure Store (S T : Type) where
  NewFunc : Unit → Object S T
  NewListFunc : Unit → Object S T
  KeyRootFunc : Context → String
  KeyFunc : Context → String → Except StatusError String
  ObjectNameFunc : Object S T → Except String String
  PredicateFunc : labels.Selector → fields.Selector → storage.SelectionPredicate S T
  DefaultQualifiedResource : boatswain.GroupResource
  CreateStrategy : rest.Strategy S T
  UpdateStrategy : rest.Strategy S T
  DeleteStrategy : rest.Strategy S T
  EnableGarbageCollection : Bool
  Storage : storage.Interface
  DestroyFunc : Unit

/-- Go `(*Store).CompleteWithOptions`, for a store whose functions, strategies and
storage are all set: the resource prefix must not be empty, and the garbage-collection
switch is taken from the options. -/
def Store.CompleteWithOptions {S T : Type} (e : Store S T) (options : generic.StoreOptions S T) :
    Except String (Store S T) :=
  let opts := options.RESTOptions
  let pfx := opts.ResourcePrefix
  let pfx := if !strings.HasPrefix pfx "/" then "/" ++ pfx else pfx
  if pfx == "/" then
    .error ("store for " ++ e.DefaultQualifiedResource.Resource ++ " has an invalid prefix")
  else
    .ok { e with EnableGarbageCollection := opts.EnableGarbageCollection }

/-- Go `(*Store).Get`. -/
def Store.Get {S T : Type} (e : Store S T) (b : storage.Backend S T) (ctx : Context)
    (name : String) : Except StatusError (boatswain.Cluster S T) :=
  match e.KeyFunc ctx name with
  | .error err => .error err
  | .ok key =>
    match b.get key with
    | none => .error (.NotFound e.DefaultQualifiedResource.Resource name)
    | some obj => .ok obj

/-- Go `(*Store).shouldDeleteDuringUpdate`: the update leaves no finalizer on an object
whose stored state is pending deletion with a zero grace period. -/
def Store.shouldDeleteDuringUpdate {S T : Type} (_e : Store S T)
    (obj existing : boatswain.Cluster S T) : Bool :=
  obj.ObjectMeta.Finalizers.length == 0 &&
    existing.ObjectMeta.DeletionGracePeriodSeconds == some 0

/-- Go `(*Store).Update`: read the current object (an absent one is not found), obtain the
new one from `objInfo`, and check its resource version: an unset version is accepted when
the strategy allows unconditional updates and is invalid otherwise, a set version must
equal the stored one. Then run the update strategy (`PrepareForUpdate`, then
`ValidateUpdate`). If the update empties the finalizers of an object pending deletion, the
object is deleted from the store and the updated object is returned; otherwise it is
written at a new revision. Returns the result and the contents of the store afterwards. -/
def Store.Update {S T : Type} (e : Store S T) (b : storage.Backend S T) (ctx : Context)
    (name : String) (objInfo : rest.UpdatedObjectInfo S T) :
    Except StatusError (boatswain.Cluster S T) × storage.Backend S T :=
  match e.KeyFunc ctx name with
  | .error err => (.error err, b)
  | .ok key =>
    match b.get key with
    | none => (.error (.NotFound e.DefaultQualifiedResource.Resource name), b)
    | some existing =>
      match objInfo.UpdatedObject ctx existing with
      | .error err => (.error err, b)
      | .ok obj =>
        let resourceVersion := obj.ObjectMeta.ResourceVersion
        let doUnconditionalUpdate :=
          resourceVersion == 0 && e.UpdateStrategy.AllowUnconditionalUpdate
        if !doUnconditionalUpdate && resourceVersion == 0 then
          (.error (.Invalid e.DefaultQualifiedResource.Resource name
            [{ ErrType := .Invalid, Field := "metadata.resourceVersion", BadValue := "0"
               Detail := "must be specified for an update" }]), b)
        else if !doUnconditionalUpdate &&
            resourceVersion != existing.ObjectMeta.ResourceVersion then
          (.error (.Conflict e.DefaultQualifiedResource.Resource name), b)
        else
          let obj := e.UpdateStrategy.PrepareForUpdate obj existing
          let errs := e.UpdateStrategy.ValidateUpdate obj existing
          if errs.length != 0 then
            (.error (.Invalid e.DefaultQualifiedResource.Resource name errs), b)
          else if e.shouldDeleteDuringUpdate obj existing then
            (.ok obj, b.delete key)
          else
            let b := b.put key obj
            match b.get key with
            | some out => (.ok out, b)
            | none => (.error (.Internal "object missing after write"), b)

/-- Go `(*Store).List`: the live objects under the key root of the context that the
predicate built by `PredicateFunc` keeps, once `IncludeUninitialized` is taken from the
list options. -/
def Store.List {S T : Type} (e : Store S T) (b : storage.Backend S T) (ctx : Context)
    (label : labels.Selector) (field : fields.Selector) (includeUninitialized : Bool) :
    List (Object S T) :=
  let p := e.PredicateFunc label field
  let p := { p with IncludeUninitialized := includeUninitialized }
  let root := e.KeyRootFunc ctx ++ "/"
  let under := b.Items.filter fun kv => strings.HasPrefix kv.1 root
  storage.filterList p (under.map fun kv => Object.cluster kv.2)

end registry

/-! ## Cluster storage (`cluster.NewStorage`, `StatusREST`) -/

namespace etcd

/-- Go `etcd.Options` (package `pkg/storage/etcd`), by the fields the callers set. -/
structure Options (S T : Type) where
  RESTOptions : generic.RESTOptions S T
  Capacity : Nat := 0

end etcd

namespace cluster

/-- The declarations of the repository that `NewStorage` refers to and that live outside
the embedded sources: the API group name and the update validators the two cluster
strategies delegate to. -/
structure Deps (S T : Type) where
  GroupName : String
  ValidateClusterUpdate : boatswain.Cluster S T → boatswain.Cluster S T → ErrorList
  ValidateClusterStatusUpdate : boatswain.Cluster S T → boatswain.Cluster S T → ErrorList

/-- Modelled from the spec: `clusterRESTStrategies`, the strategy of the main cluster
store, is declared in the strategy file of the cluster package, which is missing from the
embedded sources. Following "Spec is mutated only through the main update path" and
"Main Update never changes Status", its `PrepareForUpdate` keeps the stored Status and
takes everything else from the new object. Following "if expectedVersion is supplied",
an update without a resource version is allowed. -/
def clusterRESTStrategies {S T : Type} (d : Deps S T) : rest.Strategy S T :=
  { NamespaceScoped := true
    AllowUnconditionalUpdate := true
    PrepareForUpdate := fun new old => { new with Status := old.Status }
    ValidateUpdate := d.ValidateClusterUpdate }

/-- Modelled from the spec: `clusterStatusUpdateStrategy`, the strategy of the status
view, is declared in the strategy file of the cluster package, which is missing from the
embedded sources. Following "the Update mutator is restricted to replacing the Status
field and Metadata, never Spec", its `PrepareForUpdate` keeps the stored Spec and takes
everything else from the new object. Following "if expectedVersion is supplied", an
update without a resource version is allowed. -/
def clusterStatusUpdateStrategy {S T : Type} (d : Deps S T) : rest.Strategy S T :=
  { NamespaceScoped := true
    AllowUnconditionalUpdate := true
    PrepareForUpdate := fun new old => { new with Spec := old.Spec }
    ValidateUpdate := d.ValidateClusterStatusUpdate }

/-- Go `StatusREST`: the REST operations for the status subresource. -/
structure StatusREST (S T : Type) where
  store : registry.Store S T

/-- The `registry.Store` literal of `NewStorage`, before `CompleteWithOptions`. The
accessor behind `ObjectNameFunc` (package `pkg/api/meta`) reads the name from the object
metadata, which of the objects told apart here only a Cluster carries. -/
def newStore {S T : Type} [Inhabited S] [Inhabited T] (d : Deps S T)
    (opts : etcd.Options S T) : registry.Store S T :=
  let restOpts := opts.RESTOptions
  let pfx := "/" ++ restOpts.ResourcePrefix
  let storageInterface :=
    restOpts.Decorator restOpts.StorageConfig (.cluster { Spec := default, Status := default }) pfx
  { NewFunc := fun _ => EmptyObject
    NewListFunc := fun _ => NewList
    KeyRootFunc := fun ctx => registry.NamespaceKeyRootFunc ctx pfx
    KeyFunc := fun ctx name => registry.NamespaceKeyFunc ctx pfx name
    ObjectNameFunc := fun obj =>
      match obj with
      | .cluster c => .ok c.ObjectMeta.Name
      | _ => .error "object does not implement the Object interfaces"
    PredicateFunc := Match
    DefaultQualifiedResource := boatswain.Resource d.GroupName "clusters"
    CreateStrategy := clusterRESTStrategies d
    UpdateStrategy := clusterRESTStrategies d
    DeleteStrategy := clusterRESTStrategies d
    EnableGarbageCollection := true
    Storage := storageInterface
    DestroyFunc := () }

/-- Go `NewStorage`: the storage for Cluster resources and for their status
subresource. An `error` result stands for the panic on a failed `CompleteWithOptions`. -/
def NewStorage {S T : Type} [Inhabited S] [Inhabited T] (d : Deps S T)
    (opts : etcd.Options S T) : Except String (registry.Store S T × StatusREST S T) :=
  let restOpts := opts.RESTOptions
  let store := newStore d opts
  let options : generic.StoreOptions S T := { RESTOptions := restOpts, AttrFunc := GetAttrs }
  match store.CompleteWithOptions options with
  | .error err => .error err
  | .ok store =>
    let statusStore := store
    let statusStore := { statusStore with UpdateStrategy := clusterStatusUpdateStrategy d }
    .ok (store, { store := statusStore })

/-- Go `(*StatusREST).New`. -/
def StatusREST.New {S T : Type} [Inhabited S] [Inhabited T] (_r : StatusREST S T) : Object S T :=
  .cluster { Spec := default, Status := default }

/-- Go `(*StatusREST).Get`. -/
def StatusREST.Get {S T : Type} (r : StatusREST S T) (b : storage.Backend S T) (ctx : Context)
    (name : String) : Except StatusError (boatswain.Cluster S T) :=
  r.store.Get b ctx name

/-- Go `(*StatusREST).Update`. -/
def StatusREST.Update {S T : Type} (r : StatusREST S T) (b : storage.Backend S T)
    (ctx : Context) (name : String) (objInfo : rest.UpdatedObjectInfo S T) :
    Except StatusError (boatswain.Cluster S T) × storage.Backend S T :=
  r.store.Update b ctx name objInfo

end cluster

/-! ## REST storage provider (`pkg/registry/boatswain/rest/storage_servicecatalog.go`) -/

namespace provider

/-- Go `schema.GroupVersion`. -/
structure GroupVersion where
  Group : String
  Version : String
  deriving DecidableEq, Repr

/-- The options value `server.NewOptions(etcd.Options{...}, p.StorageType)` that
`v1alpha1Storage` builds for the host storage: the REST options, the capacity and the
storage type. The remaining fields of the literal are constants of package `host`. -/
structure HostOptions (R ST : Type) where
  RESTOptions : R
  Capacity : Nat
  StorageType : ST
  deriving DecidableEq, Repr

/-- The declarations of the repository that the provider refers to and that live outside
the embedded sources: the API group name, `boatswainv1alpha1.SchemeGroupVersion`, and
`host.NewStorage`, which returns the host storage and the host status storage. -/
structure Deps (R ST St : Type) where
  GroupName : String
  SchemeGroupVersion : GroupVersion
  hostNewStorage : HostOptions R ST → St × St

/-- Go `StorageProvider`. -/
structure StorageProvider (ST RC : Type) where
  DefaultNamespace : String
  StorageType : ST
  RESTClient : RC

/-- Go interface `generic.RESTOptionsGetter`. -/
structure RESTOptionsGetter (E R : Type) where
  GetRESTOptions : boatswain.GroupResource → Except E R

/-- Go `genericapiserver.APIGroupInfo`, by the fields `NewRESTStorage` sets. -/
structure APIGroupInfo (St : Type) where
  GroupName : String
  GroupVersion : GroupVersion
  VersionedResourcesStorageMap : List (String × List (String × St))
  deriving DecidableEq, Repr

/-- Go `(StorageProvider).v1alpha1Storage`. -/
def v1alpha1Storage {R ST St RC E : Type} (d : Deps R ST St) (p : StorageProvider ST RC)
    (restOptionsGetter : RESTOptionsGetter E R) : Except E (List (String × St)) :=
  match restOptionsGetter.GetRESTOptions (boatswain.Resource d.GroupName "hosts") with
  | .error err => .error err
  | .ok hostRESTOptions =>
    let hostOpts : HostOptions R ST :=
      { RESTOptions := hostRESTOptions
        Capacity := 1000
        StorageType := p.StorageType }
    let (hostStorage, hostStatusStorage) := d.hostNewStorage hostOpts
    .ok [("hosts", hostStorage), ("hosts/status", hostStatusStorage)]

/-- Go `(StorageProvider).NewRESTStorage`. -/
def NewRESTStorage {R ST St RC E : Type} (d : Deps R ST St) (p : StorageProvider ST RC)
    (restOptionsGetter : RESTOptionsGetter E R) : Except E (APIGroupInfo St) :=
  match v1alpha1Storage d p restOptionsGetter with
  | .error err => .error err
  | .ok storage =>
    .ok
      { GroupName := d.GroupName
        GroupVersion := d.SchemeGroupVersion
        VersionedResourcesStorageMap := [(d.SchemeGroupVersion.Version, storage)] }

/-- Go `(StorageProvider).GroupName`. -/
def GroupName {R ST St RC : Type} (d : Deps R ST St) (_p : StorageProvider ST RC) : String :=
  d.GroupName

end provider

/-! ## NodeGroup validation (`pkg/apis/boatswain/validation/nodegroup.go`) -/

namespace utilvalidation

def DNS1123SubdomainMaxLength : Nat := 253

def DNS1123LabelMaxLength : Nat := 63

/-- A character of the class `[a-z0-9]`. -/
def isLowerAlnum (c : Char) : Bool :=
  ('a' ≤ c && c ≤ 'z') || ('0' ≤ c && c ≤ '9')

/-- A match of the whole list against `[a-z0-9]([-a-z0-9]*[a-z0-9])?`. -/
def matchesDNS1123Label (cs : List Char) : Bool :=
  match cs with
  | [] => false
  | c :: rest =>
    isLowerAlnum c &&
      (rest.all (fun x => isLowerAlnum x || x == '-') &&
        ((c :: rest).getLast?.map isLowerAlnum).getD false)

/-- The pieces of a character list between the occurrences of `sep`. -/
def splitOn (sep : Char) : List Char → List (List Char)
  | [] => [[]]
  | c :: rest =>
    match splitOn sep rest with
    | [] => [[]]
    | piece :: pieces => if c = sep then [] :: piece :: pieces else (c :: piece) :: pieces

/-- A match of the whole string against the DNS-1123 subdomain expression, labels joined
by dots. -/
def matchesDNS1123Subdomain (value : String) : Bool :=
  (splitOn '.' value.toList).all matchesDNS1123Label

def maxLenError (length : Nat) : String :=
  "must be no more than " ++ toString length ++ " characters"

def dns1123SubdomainErrorMsg : String :=
  "a DNS-1123 subdomain must consist of lower case alphanumeric characters, '-' or '.', " ++
    "and must start and end with an alphanumeric character"

def dns1123LabelErrorMsg : String :=
  "a DNS-1123 label must consist of lower case alphanumeric characters or '-', " ++
    "and must start and end with an alphanumeric character"

/-- Go `validation.IsDNS1123Subdomain`: the reasons `value` is not a DNS subdomain. -/
def IsDNS1123Subdomain (value : String) : List String :=
  let errs := if value.utf8ByteSize > DNS1123SubdomainMaxLength then
    [maxLenError DNS1123SubdomainMaxLength] else []
  if !matchesDNS1123Subdomain value then errs ++ [dns1123SubdomainErrorMsg] else errs

/-- Go `validation.IsDNS1123Label`: the reasons `value` is not a DNS label. -/
def IsDNS1123Label (value : String) : List String :=
  let errs := if value.utf8ByteSize > DNS1123LabelMaxLength then
    [maxLenError DNS1123LabelMaxLength] else []
  if !matchesDNS1123Label value.toList then errs ++ [dns1123LabelErrorMsg] else errs

end utilvalidation

namespace field

/-- Go `field.NewPath(name)`. -/
def NewPath (name : String) : String := name

/-- Go `(*Path).Child(name)`. -/
def Child (p name : String) : String := p ++ "." ++ name

/-- Go `field.Required`. -/
def Required (fld : String) (detail : String) : FieldError :=
  { ErrType := .Required, Field := fld, BadValue := "", Detail := detail }

/-- Go `field.Invalid`. -/
def Invalid (fld : String) (value : String) (detail : String) : FieldError :=
  { ErrType := .Invalid, Field := fld, BadValue := value, Detail := detail }

/-- Go `field.Forbidden`. -/
def Forbidden (fld : String) (detail : String) : FieldError :=
  { ErrType := .Forbidden, Field := fld, BadValue := "", Detail := detail }

end field

namespace apivalidation

/-- The parts of `k8s.io/apimachinery/pkg/api/validation` that are kept abstract:
`maskTrailingDash`, applied to a name that is validated as a prefix, and the checks that
`ValidateObjectMeta` appends after those of the name and the namespace (cluster name,
generation, labels, annotations, owner references, initializers, finalizers). -/
structure Library where
  maskTrailingDash : String → String
  otherChecks : metav1.ObjectMeta → String → ErrorList

/-- Go `apivalidation.NameIsDNSSubdomain`. -/
def NameIsDNSSubdomain (lib : Library) (name : String) (pre : Bool) : List String :=
  let name := if pre then lib.maskTrailingDash name else name
  utilvalidation.IsDNS1123Subdomain name

/-- Go `apivalidation.NameIsDNSLabel`. -/
def NameIsDNSLabel (lib : Library) (name : String) (pre : Bool) : List String :=
  let name := if pre then lib.maskTrailingDash name else name
  utilvalidation.IsDNS1123Label name

/-- Go `apivalidation.ValidateNamespaceName`. -/
def ValidateNamespaceName (lib : Library) : String → Bool → List String :=
  NameIsDNSLabel lib

/-- Go `apivalidation.ValidateObjectMeta`. -/
def ValidateObjectMeta (lib : Library) (objMeta : metav1.ObjectMeta) (requiresNamespace : Bool)
    (nameFn : String → Bool → List String) (fldPath : String) : ErrorList :=
  let allErrs : ErrorList := []
  let allErrs :=
    if objMeta.GenerateName.length != 0 then
      allErrs ++ (nameFn objMeta.GenerateName true).map fun msg =>
        field.Invalid (field.Child fldPath "generateName") objMeta.GenerateName msg
    else allErrs
  let allErrs :=
    if objMeta.Name.length == 0 then
      allErrs ++ [field.Required (field.Child fldPath "name") "name or generateName is required"]
    else
      allErrs ++ (nameFn objMeta.Name false).map fun msg =>
        field.Invalid (field.Child fldPath "name") objMeta.Name msg
  let allErrs :=
    if requiresNamespace then
      if objMeta.Namespace.length == 0 then
        allErrs ++ [field.Required (field.Child fldPath "namespace") ""]
      else
        allErrs ++ (ValidateNamespaceName lib objMeta.Namespace false).map fun msg =>
          field.Invalid (field.Child fldPath "namespace") objMeta.Namespace msg
    else
      if objMeta.Namespace.length != 0 then
        allErrs ++ [field.Forbidden (field.Child fldPath "namespace") "not allowed on this type"]
      else allErrs
  allErrs ++ lib.otherChecks objMeta fldPath

end apivalidation

namespace boatswain

/-- Go `boatswain.NodeGroup`; `NodeGroupSpec` and `NodeGroupStatus` are the type
parameters `S` and `T`. -/
structure NodeGroup (S T : Type) where
  TypeMeta : metav1.TypeMeta := {}
  ObjectMeta : metav1.ObjectMeta := {}
  Spec : S
  Status : T
  deriving DecidableEq, Repr

end boatswain

namespace validation

/-- Go `ValidateNodeGroupName`: the validation function for NodeGroup names. -/
def ValidateNodeGroupName (lib : apivalidation.Library) : String → Bool → List String :=
  apivalidation.NameIsDNSSubdomain lib

/-- Go `validateNodeGroupSpec`. -/
def validateNodeGroupSpec {S : Type} (_spec : S) (_fldPath : String) : ErrorList :=
  []

/-- Go `ValidateNodeGroup`: the validation rules for a NodeGroup. -/
def ValidateNodeGroup {S T : Type} (lib : apivalidation.Library)
    (nodeGroup : boatswain.NodeGroup S T) : ErrorList :=
  let allErrs : ErrorList := []
  let allErrs := allErrs ++
    apivalidation.ValidateObjectMeta lib nodeGroup.ObjectMeta true
      (ValidateNodeGroupName lib) (field.NewPath "metadata")
  let allErrs := allErrs ++ validateNodeGroupSpec nodeGroup.Spec (field.NewPath "spec")
  allErrs

/-- Go `ValidateNodeGroupUpdate`. -/
def ValidateNodeGroupUpdate {S T : Type} (_new _old : boatswain.NodeGroup S T) : ErrorList :=
  []

/-- Go `ValidateNodeGroupStatusUpdate`. -/
def ValidateNodeGroupStatusUpdate {S T : Type} (new old : boatswain.NodeGroup S T) :
    ErrorList :=
  let allErrs : ErrorList := []
  let allErrs := allErrs ++ ValidateNodeGroupUpdate new old
  allErrs

end validation

/-! ## Sample inputs -/

namespace sample

def deps : cluster.Deps Nat Nat :=
  { GroupName := "boatswain.openshift.io"
    ValidateClusterUpdate := fun _ _ => []
    ValidateClusterStatusUpdate := fun _ _ => [] }

def options : etcd.Options Nat Nat :=
  { RESTOptions :=
      { StorageConfig := { Prefix := "/boatswain" }
        Decorator := generic.UndecoratedStorage
        EnableGarbageCollection := true
        DeleteCollectionWorkers := 1
        ResourcePrefix := "clusters" } }

/-- The main cluster store that `NewStorage deps options` returns. -/
def clusters : registry.Store Nat Nat :=
  { cluster.newStore deps options with EnableGarbageCollection := true }

/-- The status view that `NewStorage deps options` returns. -/
def clustersStatus : cluster.StatusREST Nat Nat :=
  { store := { clusters with UpdateStrategy := cluster.clusterStatusUpdateStrategy deps } }

def ctx : Context := { Namespace := some "ns1" }

/-- A store holding one cluster, `ns1/c1`, with Spec 1 and Status 2. -/
def backend : storage.Backend Nat Nat :=
  { Revision := 4
    Items :=
      [("/clusters/ns1/c1",
        { ObjectMeta := { Name := "c1", Namespace := "ns1", ResourceVersion := 4 }
          Spec := 1
          Status := 2 })] }

/-- A payload that replaces both Spec and Status. -/
def payload : rest.UpdatedObjectInfo Nat Nat :=
  { UpdatedObject := fun _ old => .ok { old with Spec := 9, Status := 7 } }

/-- A store holding one cluster, `ns1/c1`, with Spec 1 and Status 2, for which a delete
was requested while it carried the finalizer `cleanup`: it is pending deletion. -/
def pendingBackend : storage.Backend Nat Nat :=
  { Revision := 5
    Items :=
      [("/clusters/ns1/c1",
        { ObjectMeta :=
            { Name := "c1", Namespace := "ns1", ResourceVersion := 5
              DeletionTimestamp := some 1700000000
              DeletionGracePeriodSeconds := some 0
              Finalizers := ["cleanup"] }
          Spec := 1
          Status := 2 })] }

/-- A payload that removes every finalizer and changes nothing else. -/
def clearFinalizers : rest.UpdatedObjectInfo Nat Nat :=
  { UpdatedObject := fun _ old =>
      .ok { old with ObjectMeta := { old.ObjectMeta with Finalizers := [] } } }

/-- The declarations the provider takes from outside the embedded sources, with the two
host storages named by strings. -/
def providerDeps : provider.Deps String String String :=
  { GroupName := "boatswain.openshift.io"
    SchemeGroupVersion := { Group := "boatswain.openshift.io", Version := "v1alpha1" }
    hostNewStorage := fun _ => ("hostStorage", "hostStatusStorage") }

def storageProvider : provider.StorageProvider String Unit :=
  { DefaultNamespace := "default", StorageType := "etcd", RESTClient := () }

/-- A getter whose `GetRESTOptions` succeeds for every resource. -/
def restOptionsGetter : provider.RESTOptionsGetter String String :=
  { GetRESTOptions := fun resource => .ok ("options for " ++ resource.Resource) }

/-- Cluster `a` with label `env: prod`. -/
def a : boatswain.Cluster Nat Nat :=
  { ObjectMeta := { Name := "a", Namespace := "ns1", Labels := [("env", "prod")] }
    Spec := 0
    Status := 0 }

/-- Cluster `b` with label `env: dev`. -/
def b : boatswain.Cluster Nat Nat :=
  { ObjectMeta := { Name := "b", Namespace := "ns1", Labels := [("env", "dev")] }
    Spec := 0
    Status := 0 }

/-- Cluster `p` with label `env: prod` and a pending initializer. -/
def p : boatswain.Cluster Nat Nat :=
  { ObjectMeta :=
      { Name := "p", Namespace := "ns1", Labels := [("env", "prod")]
        Initializers := some { Pending := ["podpreset"] } }
    Spec := 0
    Status := 0 }

/-- A store holding the clusters `a` and `b` of namespace `ns1` and a cluster of another
namespace. -/
def listBackend : storage.Backend Nat Nat :=
  { Revision := 3
    Items :=
      [("/clusters/ns1/a", a), ("/clusters/ns1/b", b),
        ("/clusters/ns2/a",
          { ObjectMeta := { Name := "a", Namespace := "ns2", Labels := [("env", "prod")] }
            Spec := 0
            Status := 0 })] }

/-- A getter whose `GetRESTOptions` fails for `hosts` and succeeds for every other
resource. -/
def failingGetter : provider.RESTOptionsGetter String String :=
  { GetRESTOptions := fun resource =>
      if resource.Resource = "hosts" then .error "no storage configured for hosts"
      else .ok ("options for " ++ resource.Resource) }

/-- A NodeGroup that differs from `goodGroup` in Spec and Status. -/
def changedGroup : boatswain.NodeGroup Nat Nat :=
  { ObjectMeta := { Name := "workers.east-1", Namespace := "ns1" }, Spec := 8, Status := 5 }

/-- A validation library whose abstract parts report nothing. -/
def lib : apivalidation.Library :=
  { maskTrailingDash := fun name => name
    otherChecks := fun _ _ => [] }

/-- A NodeGroup with a valid name and no namespace. -/
def noNamespace : boatswain.NodeGroup Nat Nat :=
  { ObjectMeta := { Name := "workers" }, Spec := 3, Status := 0 }

/-- A NodeGroup with a namespace and a name that is not a DNS subdomain. -/
def badName : boatswain.NodeGroup Nat Nat :=
  { ObjectMeta := { Name := "Workers_1", Namespace := "ns1" }, Spec := 3, Status := 0 }

/-- A NodeGroup with a valid name and namespace. -/
def goodGroup : boatswain.NodeGroup Nat Nat :=
  { ObjectMeta := { Name := "workers.east-1", Namespace := "ns1" }, Spec := 3, Status := 0 }

end sample

/-! ## Theorems -/

namespace options

theorem hasPrefix_dash_iff (c : String) :
    strings.HasPrefix c "-" = true ↔ ∃ r : String, c = "-" ++ r := by
  unfold strings.HasPrefix
  constructor
  · intro h
    have h2 : "-".toList <+: c.toList := List.isPrefixOf_iff_prefix.mp h
    obtain ⟨t, ht⟩ := h2
    refine ⟨String.mk t, ?_⟩
    apply String.ext
    simpa using ht.symm
  · rintro ⟨r, rfl⟩
    apply List.isPrefixOf_iff_prefix.mpr
    exact ⟨r.toList, by simp⟩

theorem sliceFrom_dash (r : String) : sliceFrom ("-" ++ r) 1 = r := by
  unfold sliceFrom
  apply String.ext
  simp

theorem validateLoop_nil_iff (set : List String) (cs : List String)
    (errs : List ControllerError) :
    validateLoop set cs errs = [] ↔
      errs = [] ∧ ∀ c ∈ cs, c = "*" ∨ (∃ r : String, c = "-" ++ r ∧ r ∈ set) ∨
        ((∀ r : String, c ≠ "-" ++ r) ∧ c ∈ set) := by
  induction cs generalizing errs with
  | nil => simp [validateLoop]
  | cons c rest ih =>
    unfold validateLoop
    by_cases hstar : c = "*"
    · simp [hstar, ih]
    · simp only [hstar, if_false, List.forall_mem_cons, false_or]
      by_cases hp : strings.HasPrefix c "-" = true
      · obtain ⟨r, rfl⟩ := (hasPrefix_dash_iff c).mp hp
        have hno : ¬ (∀ r' : String, "-" ++ r ≠ "-" ++ r') := fun h => h r rfl
        have hex : (∃ r' : String, "-" ++ r = "-" ++ r' ∧ r' ∈ set) ↔ r ∈ set := by
          constructor
          · rintro ⟨r', he, hm⟩
            have : r = r' := by
              have := congrArg (fun s => sliceFrom s 1) he
              simpa [sliceFrom_dash] using this
            exact this ▸ hm
          · intro hm
            exact ⟨r, rfl, hm⟩
        simp only [hp, if_true, sliceFrom_dash, Has, hex, hno, false_and, or_false]
        by_cases hm : r ∈ set
        · simp [hm, ih]
        · simp [hm, ih]
      · have hno : ∀ r : String, c ≠ "-" ++ r := fun r h =>
          hp ((hasPrefix_dash_iff c).mpr ⟨r, h⟩)
        have hex : ¬ (∃ r : String, c = "-" ++ r ∧ r ∈ set) := fun ⟨r, h, _⟩ => hno r h
        simp only [hp, Has]
        by_cases hm : c ∈ set
        · simp [hm, ih, hex, hno]
        · simp [hm, ih, hex]

/-- C1: `CMServer.Validate` returns no error exactly when every entry of `s.Controllers`
is the literal `*`, or is `-` followed by a known controller name, or does not start with
`-` and is itself a known controller name. -/
theorem Validate_none_iff (s : CMServer) (allControllers disabled : List String) :
    Validate s allControllers disabled = none ↔
      ∀ c ∈ s.Controllers, c = "*" ∨
        (∃ r : String, c = "-" ++ r ∧ r ∈ allControllers) ∨
        ((∀ r : String, c ≠ "-" ++ r) ∧ c ∈ allControllers) := by
  have hV : Validate s allControllers disabled =
      NewAggregate (validateLoop allControllers s.Controllers []) := rfl
  rw [hV]
  unfold NewAggregate
  have key := validateLoop_nil_iff allControllers s.Controllers []
  simp only [true_and] at key
  rw [← key]
  clear key
  generalize validateLoop allControllers s.Controllers [] = l
  cases l <;> simp

end options

/-! ### Store updates -/

namespace storage

theorem lookup_filter_ne {α : Type} (l : List (String × α)) (key k : String) (h : k ≠ key) :
    (l.filter (fun kv => kv.1 != key)).lookup k = l.lookup k := by
  induction l with
  | nil => rfl
  | cons hd tl ih =>
    obtain ⟨a, v⟩ := hd
    by_cases ha : a = key
    · subst ha
      have hk : (k == a) = false := by simpa using h
      simp [List.filter, List.lookup, hk, ih]
    · have hne : (a != key) = true := by simpa using ha
      simp only [List.filter, hne, List.lookup]
      rw [ih]

theorem Backend.get_put {S T : Type} (b : Backend S T) (key k : String)
    (obj : boatswain.Cluster S T) :
    (b.put key obj).get k =
      if k = key then
        some { obj with
          ObjectMeta := { obj.ObjectMeta with ResourceVersion := b.Revision + 1 } }
      else b.get k := by
  unfold Backend.put Backend.get
  by_cases h : k = key
  · subst h
    simp [List.lookup]
  · have hk : (k == key) = false := by simpa using h
    simp only [List.lookup, hk, h, if_false]
    exact lookup_filter_ne b.Items key k h

theorem lookup_filter_self {α : Type} (l : List (String × α)) (key : String) :
    (l.filter (fun kv => kv.1 != key)).lookup key = none := by
  induction l with
  | nil => rfl
  | cons hd tl ih =>
    obtain ⟨a, v⟩ := hd
    by_cases ha : a = key
    · subst ha
      simp [List.filter, ih]
    · have hne : (a != key) = true := by simpa using ha
      have hk : (key == a) = false := by simpa using fun h : key = a => ha h.symm
      simp only [List.filter, hne, List.lookup, hk]
      exact ih

theorem Backend.get_delete {S T : Type} (b : Backend S T) (key k : String) :
    (b.delete key).get k = if k = key then none else b.get k := by
  unfold Backend.delete Backend.get
  by_cases h : k = key
  · subst h
    simp only [if_true]
    exact lookup_filter_self b.Items k
  · simp only [h, if_false]
    exact lookup_filter_ne b.Items key k h

end storage

namespace registry

/-- An update either leaves unchanged, at every key, every projection of the stored
object that ignores the metadata and that the update strategy carries over from the
stored object, or it deletes the object under the key of the request: then the stored
object was pending deletion with a zero grace period and the updated object has no
finalizer. -/
theorem Store.Update_preserves {S T α : Type} (e : Store S T) (f : boatswain.Cluster S T → α)
    (hmeta : ∀ (c : boatswain.Cluster S T) (m : metav1.ObjectMeta),
      f { c with ObjectMeta := m } = f c)
    (hprep : ∀ new old, f (e.UpdateStrategy.PrepareForUpdate new old) = f old)
    (b : storage.Backend S T) (ctx : Context) (name : String)
    (objInfo : rest.UpdatedObjectInfo S T) (k : String) :
    ((e.Update b ctx name objInfo).2.get k).map f = (b.get k).map f ∨
      ((e.Update b ctx name objInfo).2.get k = none ∧ e.KeyFunc ctx name = .ok k ∧
        ∃ existing obj, b.get k = some existing ∧
          objInfo.UpdatedObject ctx existing = .ok obj ∧
          existing.ObjectMeta.DeletionGracePeriodSeconds = some 0 ∧
          (e.UpdateStrategy.PrepareForUpdate obj existing).ObjectMeta.Finalizers = []) := by
  unfold Store.Update
  cases hkey : e.KeyFunc ctx name with
  | error err => exact Or.inl rfl
  | ok key =>
    simp only []
    cases hex : b.get key with
    | none => exact Or.inl rfl
    | some existing =>
      simp only []
      cases hupd : objInfo.UpdatedObject ctx existing with
      | error err => exact Or.inl rfl
      | ok obj =>
        simp only []
        split
        · exact Or.inl rfl
        · split
          · exact Or.inl rfl
          · split
            · exact Or.inl rfl
            · split
              · rename_i hdel
                by_cases h : k = key
                · subst h
                  right
                  refine ⟨?_, rfl, existing, obj, hex, hupd, ?_, ?_⟩
                  · rw [storage.Backend.get_delete]
                    simp
                  · unfold Store.shouldDeleteDuringUpdate at hdel
                    simp only [Bool.and_eq_true, beq_iff_eq] at hdel
                    exact hdel.2
                  · unfold Store.shouldDeleteDuringUpdate at hdel
                    simp only [Bool.and_eq_true, beq_iff_eq] at hdel
                    exact List.length_eq_zero.mp hdel.1
                · left
                  rw [storage.Backend.get_delete]
                  simp [h]
              · have hput :
                    ((b.put key (e.UpdateStrategy.PrepareForUpdate obj existing)).get k).map f
                      = (b.get k).map f := by
                  rw [storage.Backend.get_put]
                  by_cases h : k = key
                  · subst h
                    simp [hex, hmeta, hprep]
                  · simp [h]
                split <;> exact Or.inl hput

end registry

namespace cluster

theorem CompleteWithOptions_ok {S T : Type} (e e' : registry.Store S T)
    (options : generic.StoreOptions S T) (h : e.CompleteWithOptions options = .ok e') :
    e' = { e with EnableGarbageCollection := options.RESTOptions.EnableGarbageCollection } := by
  unfold registry.Store.CompleteWithOptions at h
  simp only [] at h
  split_ifs at h <;> (cases h; rfl)

theorem NewStorage_ok {S T : Type} [Inhabited S] [Inhabited T] (d : Deps S T)
    (opts : etcd.Options S T) (clusters : registry.Store S T) (clustersStatus : StatusREST S T)
    (h : NewStorage d opts = .ok (clusters, clustersStatus)) :
    clusters = { newStore d opts with
        EnableGarbageCollection := opts.RESTOptions.EnableGarbageCollection } ∧
      clustersStatus.store = { clusters with UpdateStrategy := clusterStatusUpdateStrategy d } := by
  unfold NewStorage at h
  simp only [] at h
  cases hc : (newStore d opts).CompleteWithOptions
      { RESTOptions := opts.RESTOptions, AttrFunc := GetAttrs } with
  | error err =>
    rw [hc] at h
    cases h
  | ok store =>
    rw [hc] at h
    have hs := CompleteWithOptions_ok _ _ _ hc
    cases h
    exact ⟨hs, rfl⟩

/-- C2, as stated, fails: cluster `ns1/c1` is stored pending deletion with one finalizer,
and a payload that removes the finalizer makes the update delete the object, through the
status view as through the main store. Afterwards no Spec and no Status is stored under
its key, where Spec 1 and Status 2 were stored before. -/
theorem Update_frame_counterexample :
    (((sample.clustersStatus.Update sample.pendingBackend sample.ctx "c1"
          sample.clearFinalizers).2.get "/clusters/ns1/c1").map fun c => c.Spec) = none ∧
      ((sample.pendingBackend.get "/clusters/ns1/c1").map fun c => c.Spec) = some 1 ∧
      (((sample.clusters.Update sample.pendingBackend sample.ctx "c1"
          sample.clearFinalizers).2.get "/clusters/ns1/c1").map fun c => c.Status) = none ∧
      ((sample.pendingBackend.get "/clusters/ns1/c1").map fun c => c.Status) = some 2 := by
  refine ⟨?_, ?_, ?_, ?_⟩ <;> decide

/-- C2, amended: for the stores returned by `NewStorage`, an Update through the status
view either leaves the Spec stored at every key equal to its previous value, whatever the
payload, or deletes the object of the request, which was stored pending deletion with a
zero grace period and is left without finalizers by the payload; an Update through the
main cluster store does the same for the stored Status. -/
theorem Update_frame {S T : Type} [Inhabited S] [Inhabited T] (d : Deps S T)
    (opts : etcd.Options S T) (clusters : registry.Store S T) (clustersStatus : StatusREST S T)
    (h : NewStorage d opts = .ok (clusters, clustersStatus))
    (b : storage.Backend S T) (ctx : Context) (name : String)
    (objInfo : rest.UpdatedObjectInfo S T) (k : String) :
    ((((clustersStatus.Update b ctx name objInfo).2.get k).map fun c => c.Spec) =
          ((b.get k).map fun c => c.Spec) ∨
        ((clustersStatus.Update b ctx name objInfo).2.get k = none ∧
          clusters.KeyFunc ctx name = .ok k ∧
          ∃ existing obj, b.get k = some existing ∧
            objInfo.UpdatedObject ctx existing = .ok obj ∧
            existing.ObjectMeta.DeletionGracePeriodSeconds = some 0 ∧
            obj.ObjectMeta.Finalizers = [])) ∧
      ((((clusters.Update b ctx name objInfo).2.get k).map fun c => c.Status) =
          ((b.get k).map fun c => c.Status) ∨
        ((clusters.Update b ctx name objInfo).2.get k = none ∧
          clusters.KeyFunc ctx name = .ok k ∧
          ∃ existing obj, b.get k = some existing ∧
            objInfo.UpdatedObject ctx existing = .ok obj ∧
            existing.ObjectMeta.DeletionGracePeriodSeconds = some 0 ∧
            obj.ObjectMeta.Finalizers = [])) := by
  obtain ⟨hc, hs⟩ := NewStorage_ok d opts clusters clustersStatus h
  constructor
  · unfold StatusREST.Update
    have hprep : ∀ new old : boatswain.Cluster S T,
        (clustersStatus.store.UpdateStrategy.PrepareForUpdate new old).Spec = old.Spec := by
      intro new old; rw [hs]; rfl
    have hfin : ∀ new old : boatswain.Cluster S T,
        (clustersStatus.store.UpdateStrategy.PrepareForUpdate new old).ObjectMeta =
          new.ObjectMeta := by
      intro new old; rw [hs]; rfl
    have hkey : clustersStatus.store.KeyFunc = clusters.KeyFunc := by rw [hs]
    rcases registry.Store.Update_preserves clustersStatus.store (fun c => c.Spec)
        (fun _ _ => rfl) hprep b ctx name objInfo k with hsame | ⟨hnone, hk, ex, obj, h1, h2, h3, h4⟩
    · exact Or.inl hsame
    · rw [hfin] at h4
      rw [hkey] at hk
      exact Or.inr ⟨hnone, hk, ex, obj, h1, h2, h3, h4⟩
  · have hprep : ∀ new old : boatswain.Cluster S T,
        (clusters.UpdateStrategy.PrepareForUpdate new old).Status = old.Status := by
      intro new old; rw [hc]; rfl
    have hfin : ∀ new old : boatswain.Cluster S T,
        (clusters.UpdateStrategy.PrepareForUpdate new old).ObjectMeta = new.ObjectMeta := by
      intro new old; rw [hc]; rfl
    rcases registry.Store.Update_preserves clusters (fun c => c.Status)
        (fun _ _ => rfl) hprep b ctx name objInfo k with hsame | ⟨hnone, hk, ex, obj, h1, h2, h3, h4⟩
    · exact Or.inl hsame
    · rw [hfin] at h4
      exact Or.inr ⟨hnone, hk, ex, obj, h1, h2, h3, h4⟩

end cluster

namespace cluster

theorem Update_frame_witness :
    NewStorage sample.deps sample.options = .ok (sample.clusters, sample.clustersStatus) ∧
      (((sample.clustersStatus.Update sample.backend sample.ctx "c1" sample.payload).2.get
          "/clusters/ns1/c1").map fun c => c.Spec) = some 1 ∧
      (((sample.clustersStatus.Update sample.backend sample.ctx "c1" sample.payload).2.get
          "/clusters/ns1/c1").map fun c => c.Status) = some 7 ∧
      (((sample.clusters.Update sample.backend sample.ctx "c1" sample.payload).2.get
          "/clusters/ns1/c1").map fun c => c.Status) = some 2 ∧
      (((sample.clusters.Update sample.backend sample.ctx "c1" sample.payload).2.get
          "/clusters/ns1/c1").map fun c => c.Spec) = some 9 := by
  have hframe := Update_frame sample.deps sample.options sample.clusters sample.clustersStatus
    rfl sample.backend sample.ctx "c1" sample.payload "/clusters/ns1/c1"
  refine ⟨rfl, ?_, by decide, ?_, by decide⟩
  · rcases hframe.1 with hsame | ⟨_, _, ex, _, hex, _, hgrace, _⟩
    · rw [hsame]; decide
    · have hex' : sample.backend.get "/clusters/ns1/c1" =
          some { ObjectMeta := { Name := "c1", Namespace := "ns1", ResourceVersion := 4 }
                 Spec := 1, Status := 2 } := rfl
      rw [hex'] at hex
      cases hex
      cases hgrace
  · rcases hframe.2 with hsame | ⟨_, _, ex, _, hex, _, hgrace, _⟩
    · rw [hsame]; decide
    · have hex' : sample.backend.get "/clusters/ns1/c1" =
          some { ObjectMeta := { Name := "c1", Namespace := "ns1", ResourceVersion := 4 }
                 Spec := 1, Status := 2 } := rfl
      rw [hex'] at hex
      cases hex
      cases hgrace

end cluster

/-! ### Storage provider -/

namespace provider

theorem v1alpha1Storage_ok {R ST St RC E : Type} (d : Deps R ST St)
    (p : StorageProvider ST RC) (restOptionsGetter : RESTOptionsGetter E R) (hostRESTOptions : R)
    (h : restOptionsGetter.GetRESTOptions (boatswain.Resource d.GroupName "hosts") =
      .ok hostRESTOptions) :
    v1alpha1Storage d p restOptionsGetter =
      .ok
        [("hosts",
            (d.hostNewStorage
              { RESTOptions := hostRESTOptions, Capacity := 1000,
                StorageType := p.StorageType }).1),
          ("hosts/status",
            (d.hostNewStorage
              { RESTOptions := hostRESTOptions, Capacity := 1000,
                StorageType := p.StorageType }).2)] := by
  unfold v1alpha1Storage
  rw [h]

/-- C3, as stated, fails: at a getter whose `GetRESTOptions` succeeds for every resource,
the storage map built by `v1alpha1Storage`, which `NewRESTStorage` installs under
`v1alpha1`, consists of the entries `hosts` and `hosts/status`; it has no entry for
`clusters`, `nodes` or `nodegroups`, nor for their status. -/
theorem v1alpha1Storage_counterexample :
    v1alpha1Storage sample.providerDeps sample.storageProvider sample.restOptionsGetter =
        .ok [("hosts", "hostStorage"), ("hosts/status", "hostStatusStorage")] ∧
      NewRESTStorage sample.providerDeps sample.storageProvider sample.restOptionsGetter =
        .ok { GroupName := "boatswain.openshift.io"
              GroupVersion := { Group := "boatswain.openshift.io", Version := "v1alpha1" }
              VersionedResourcesStorageMap :=
                [("v1alpha1",
                  [("hosts", "hostStorage"), ("hosts/status", "hostStatusStorage")])] } ∧
      List.lookup "clusters" [("hosts", "hostStorage"), ("hosts/status", "hostStatusStorage")] =
        none ∧
      List.lookup "nodes" [("hosts", "hostStorage"), ("hosts/status", "hostStatusStorage")] =
        none ∧
      List.lookup "nodegroups"
        [("hosts", "hostStorage"), ("hosts/status", "hostStatusStorage")] = none ∧
      List.lookup "clusters/status"
        [("hosts", "hostStorage"), ("hosts/status", "hostStatusStorage")] = none := by
  refine ⟨rfl, rfl, ?_, ?_, ?_, ?_⟩ <;> decide

/-- C3, amended: for every getter whose `GetRESTOptions` call for `hosts` succeeds, the
storage map built by `v1alpha1Storage` holds the host storage under `hosts` and the host
status storage under `hosts/status`, and `NewRESTStorage` installs that map under the
version of `SchemeGroupVersion`. -/
theorem v1alpha1Storage_hosts {R ST St RC E : Type} (d : Deps R ST St)
    (p : StorageProvider ST RC) (restOptionsGetter : RESTOptionsGetter E R) (hostRESTOptions : R)
    (h : restOptionsGetter.GetRESTOptions (boatswain.Resource d.GroupName "hosts") =
      .ok hostRESTOptions) :
    ∃ storage info,
      v1alpha1Storage d p restOptionsGetter = .ok storage ∧
        storage.lookup "hosts" =
          some (d.hostNewStorage
            { RESTOptions := hostRESTOptions, Capacity := 1000,
              StorageType := p.StorageType }).1 ∧
        storage.lookup "hosts/status" =
          some (d.hostNewStorage
            { RESTOptions := hostRESTOptions, Capacity := 1000,
              StorageType := p.StorageType }).2 ∧
        NewRESTStorage d p restOptionsGetter = .ok info ∧
        info.VersionedResourcesStorageMap.lookup d.SchemeGroupVersion.Version =
          some storage := by
  have hs := v1alpha1Storage_ok d p restOptionsGetter hostRESTOptions h
  generalize d.hostNewStorage
    { RESTOptions := hostRESTOptions, Capacity := 1000, StorageType := p.StorageType } = pair
    at hs ⊢
  refine ⟨[("hosts", pair.1), ("hosts/status", pair.2)],
    { GroupName := d.GroupName
      GroupVersion := d.SchemeGroupVersion
      VersionedResourcesStorageMap :=
        [(d.SchemeGroupVersion.Version, [("hosts", pair.1), ("hosts/status", pair.2)])] },
    hs, ?_, ?_, ?_, ?_⟩
  · simp [List.lookup]
  · have hne : ("hosts/status" == "hosts") = false := by decide
    simp [List.lookup, hne]
  · unfold NewRESTStorage
    rw [hs]
  · simp [List.lookup]

theorem v1alpha1Storage_hosts_witness :
    ∃ storage info,
      v1alpha1Storage sample.providerDeps sample.storageProvider sample.restOptionsGetter =
          .ok storage ∧
        storage.lookup "hosts" =
          some (sample.providerDeps.hostNewStorage
            { RESTOptions := "options for hosts", Capacity := 1000,
              StorageType := sample.storageProvider.StorageType }).1 ∧
        storage.lookup "hosts/status" =
          some (sample.providerDeps.hostNewStorage
            { RESTOptions := "options for hosts", Capacity := 1000,
              StorageType := sample.storageProvider.StorageType }).2 ∧
        NewRESTStorage sample.providerDeps sample.storageProvider sample.restOptionsGetter =
          .ok info ∧
        info.VersionedResourcesStorageMap.lookup
          sample.providerDeps.SchemeGroupVersion.Version = some storage :=
  v1alpha1Storage_hosts sample.providerDeps sample.storageProvider sample.restOptionsGetter
    "options for hosts" rfl

end provider

/-! ### Keys -/

theorem singleton_infix_iff_mem (c : Char) (l : List Char) : [c] <:+: l ↔ c ∈ l := by
  constructor
  · rintro ⟨s, t, rfl⟩
    simp
  · intro h
    obtain ⟨s, t, rfl⟩ := List.append_of_mem h
    exact ⟨s, t, by simp⟩

theorem contains_slash_iff (name : String) :
    strings.Contains name "/" = true ↔ '/' ∈ name.toList := by
  unfold strings.Contains
  rw [decide_eq_true_iff]
  exact singleton_infix_iff_mem '/' name.toList

theorem contains_percent_iff (name : String) :
    strings.Contains name "%" = true ↔ '%' ∈ name.toList := by
  unfold strings.Contains
  rw [decide_eq_true_iff]
  exact singleton_infix_iff_mem '%' name.toList

theorem IsValidPathSegmentName_nil_iff (name : String) :
    path.IsValidPathSegmentName name = [] ↔
      name ≠ "." ∧ name ≠ ".." ∧ '/' ∉ name.toList ∧ '%' ∉ name.toList := by
  unfold path.IsValidPathSegmentName path.NameMayNotBe path.NameMayNotContain
  by_cases h1 : name = "."
  · subst h1
    simp [List.find?]
  · by_cases h2 : name = ".."
    · subst h2
      simp [List.find?]
    · have e1 : (name == ".") = false := by simpa using h1
      have e2 : (name == "..") = false := by simpa using h2
      rw [← contains_slash_iff, ← contains_percent_iff]
      cases hcs : strings.Contains name "/" <;> cases hcp : strings.Contains name "%" <;>
        simp [List.find?, List.filterMap, e1, e2, h1, h2, hcs, hcp]

theorem length_eq_zero_iff (s : String) : s.length = 0 ↔ s = "" := by
  constructor
  · intro h
    apply String.ext
    have : s.data.length = 0 := h
    simpa using List.length_eq_zero.mp this
  · rintro rfl
    rfl

/-- `registry.NamespaceKeyFunc` succeeds exactly on a context with a non-empty namespace
and a valid path segment name, and then returns prefix, namespace and name joined by `/`. -/
theorem NamespaceKeyFunc_ok_iff (ctx : Context) (pfx name key : String) :
    registry.NamespaceKeyFunc ctx pfx name = .ok key ↔
      ∃ ns, ctx.Namespace = some ns ∧ ns ≠ "" ∧ name ≠ "" ∧ name ≠ "." ∧ name ≠ ".." ∧
        '/' ∉ name.toList ∧ '%' ∉ name.toList ∧ key = pfx ++ "/" ++ ns ++ "/" ++ name := by
  unfold registry.NamespaceKeyFunc registry.NamespaceKeyRootFunc NamespaceFrom
  have hvalid := IsValidPathSegmentName_nil_iff name
  cases hns : ctx.Namespace with
  | none => simp
  | some ns =>
    by_cases hns0 : ns = ""
    · subst hns0
      simp
    · have hlen : ns.length ≠ 0 := fun h => hns0 ((length_eq_zero_iff ns).mp h)
      by_cases hn0 : name = ""
      · subst hn0
        simp [hlen]
      · have hnlen : name.length ≠ 0 := fun h => hn0 ((length_eq_zero_iff name).mp h)
        have hpos : 0 < ns.length := Nat.pos_of_ne_zero hlen
        simp only [Bool.not_true, Bool.false_or, beq_iff_eq, bne_iff_ne, ne_eq, Bool.true_and,
          decide_eq_true_eq, gt_iff_lt, hlen, hnlen, hpos, if_true, if_false, ite_not,
          List.length_eq_zero, Option.some.injEq, exists_eq_left']
        by_cases hv : path.IsValidPathSegmentName name = []
        · have hv' := hvalid.mp hv
          rw [if_pos hv]
          constructor
          · intro h
            injection h with h
            exact ⟨hns0, hn0, hv'.1, hv'.2.1, hv'.2.2.1, hv'.2.2.2, h.symm⟩
          · rintro ⟨_, _, _, _, _, _, h⟩
            rw [h]
        · rw [if_neg hv]
          constructor
          · intro h
            cases h
          · rintro ⟨_, _, h1, h2, h3, h4, _⟩
            exact absurd (hvalid.mpr ⟨h1, h2, h3, h4⟩) hv

theorem split_at_last {x : Char} (a c b e : List Char) (h : a ++ x :: b = c ++ x :: e)
    (hb : x ∉ b) (he : x ∉ e) : a = c ∧ b = e := by
  induction a generalizing c with
  | nil =>
    cases c with
    | nil => exact ⟨rfl, by simpa using h⟩
    | cons y c' =>
      simp only [List.nil_append, List.cons_append, List.cons.injEq] at h
      exact absurd (h.2 ▸ (by simp : x ∈ c' ++ x :: e)) hb
  | cons z a' ih =>
    cases c with
    | nil =>
      simp only [List.nil_append, List.cons_append, List.cons.injEq] at h
      exact absurd (h.2 ▸ (by simp : x ∈ a' ++ x :: b)) he
    | cons y c' =>
      simp only [List.cons_append, List.cons.injEq] at h
      obtain ⟨hc, hb'⟩ := ih c' h.2
      exact ⟨by rw [h.1, hc], hb'⟩

namespace cluster

theorem NewStorage_keys {S T : Type} [Inhabited S] [Inhabited T] (d : Deps S T)
    (opts : etcd.Options S T) (clusters : registry.Store S T) (clustersStatus : StatusREST S T)
    (h : NewStorage d opts = .ok (clusters, clustersStatus)) :
    (∀ ctx name, clusters.KeyFunc ctx name =
        registry.NamespaceKeyFunc ctx ("/" ++ opts.RESTOptions.ResourcePrefix) name) ∧
      ∀ ctx, clusters.KeyRootFunc ctx =
        registry.NamespaceKeyRootFunc ctx ("/" ++ opts.RESTOptions.ResourcePrefix) := by
  obtain ⟨hc, _⟩ := NewStorage_ok d opts clusters clustersStatus h
  subst hc
  exact ⟨fun _ _ => rfl, fun _ => rfl⟩

/-- C4: for the cluster store returned by `NewStorage` over resource prefix `p`, a context
carrying a non-empty namespace `ns` and a valid name `n` (non-empty, not `.` or `..`, with
neither `/` nor `%`), `KeyFunc` succeeds with `/p/ns/n`, which is `KeyRootFunc` of the
context followed by `/` and `n`, a strict extension of the key root. -/
theorem KeyFunc_layout {S T : Type} [Inhabited S] [Inhabited T] (d : Deps S T)
    (opts : etcd.Options S T) (clusters : registry.Store S T) (clustersStatus : StatusREST S T)
    (h : NewStorage d opts = .ok (clusters, clustersStatus))
    (ctx : Context) (ns n : String) (hctx : ctx.Namespace = some ns) (hns : ns ≠ "")
    (hn : n ≠ "") (hdot : n ≠ ".") (hdotdot : n ≠ "..") (hslash : '/' ∉ n.toList)
    (hpercent : '%' ∉ n.toList) :
    clusters.KeyFunc ctx n =
        .ok ("/" ++ opts.RESTOptions.ResourcePrefix ++ "/" ++ ns ++ "/" ++ n) ∧
      "/" ++ opts.RESTOptions.ResourcePrefix ++ "/" ++ ns ++ "/" ++ n =
        clusters.KeyRootFunc ctx ++ "/" ++ n ∧
      (clusters.KeyRootFunc ctx).toList <+: (clusters.KeyRootFunc ctx ++ "/" ++ n).toList ∧
      clusters.KeyRootFunc ctx ≠ clusters.KeyRootFunc ctx ++ "/" ++ n := by
  obtain ⟨hk, hr⟩ := NewStorage_keys d opts clusters clustersStatus h
  have hlen : 0 < ns.length :=
    Nat.pos_of_ne_zero fun h0 => hns ((length_eq_zero_iff ns).mp h0)
  have hroot : clusters.KeyRootFunc ctx = "/" ++ opts.RESTOptions.ResourcePrefix ++ "/" ++ ns := by
    rw [hr]
    unfold registry.NamespaceKeyRootFunc NamespaceFrom
    simp [hctx, hlen]
  refine ⟨?_, ?_, ?_, ?_⟩
  · rw [hk]
    exact (NamespaceKeyFunc_ok_iff ctx _ n _).mpr
      ⟨ns, hctx, hns, hn, hdot, hdotdot, hslash, hpercent, rfl⟩
  · rw [hroot]
  · exact ⟨("/" ++ n).toList, by simp [String.append_assoc]⟩
  · intro heq
    have hl := congrArg String.length heq
    simp only [String.length_append] at hl
    have h1 : "/".length = 1 := rfl
    omega

/-- C5: the `KeyFunc` of the cluster store returned by `NewStorage` is injective over the
pair of namespace and name: two calls that succeed with the same key were made with equal
namespaces and equal names. -/
theorem KeyFunc_injective {S T : Type} [Inhabited S] [Inhabited T] (d : Deps S T)
    (opts : etcd.Options S T) (clusters : registry.Store S T) (clustersStatus : StatusREST S T)
    (h : NewStorage d opts = .ok (clusters, clustersStatus))
    (ctx₁ ctx₂ : Context) (n₁ n₂ key : String)
    (h₁ : clusters.KeyFunc ctx₁ n₁ = .ok key) (h₂ : clusters.KeyFunc ctx₂ n₂ = .ok key) :
    ctx₁.Namespace = ctx₂.Namespace ∧ n₁ = n₂ := by
  obtain ⟨hk, _⟩ := NewStorage_keys d opts clusters clustersStatus h
  rw [hk] at h₁ h₂
  obtain ⟨ns₁, hc₁, _, _, _, _, hs₁, _, e₁⟩ := (NamespaceKeyFunc_ok_iff _ _ _ _).mp h₁
  obtain ⟨ns₂, hc₂, _, _, _, _, hs₂, _, e₂⟩ := (NamespaceKeyFunc_ok_iff _ _ _ _).mp h₂
  have hd := congrArg String.toList (e₁.symm.trans e₂)
  simp only [String.toList, String.data_append, List.append_assoc] at hd
  have hd2 := List.append_cancel_left
    (List.append_cancel_left (List.append_cancel_left hd))
  simp only [List.singleton_append] at hd2
  have hsplit := split_at_last ns₁.data ns₂.data n₁.data n₂.data hd2 hs₁ hs₂
  have hns : ns₁ = ns₂ := String.ext hsplit.1
  exact ⟨by rw [hc₁, hc₂, hns], String.ext hsplit.2⟩

/-- C6: the store wrapped by the `StatusREST` that `NewStorage` returns is the main
cluster store with `UpdateStrategy` replaced by `clusterStatusUpdateStrategy` (the main
store has `clusterRESTStrategies`): every other field is the same, both compute the same
key and key root, and `StatusREST.Get` returns what the main store's `Get` returns. -/
theorem StatusREST_store_eq {S T : Type} [Inhabited S] [Inhabited T] (d : Deps S T)
    (opts : etcd.Options S T) (clusters : registry.Store S T) (clustersStatus : StatusREST S T)
    (h : NewStorage d opts = .ok (clusters, clustersStatus)) :
    clustersStatus.store = { clusters with UpdateStrategy := clusterStatusUpdateStrategy d } ∧
      clustersStatus.store.UpdateStrategy = clusterStatusUpdateStrategy d ∧
      clusters.UpdateStrategy = clusterRESTStrategies d ∧
      clustersStatus.store.Storage = clusters.Storage ∧
      clustersStatus.store.KeyRootFunc = clusters.KeyRootFunc ∧
      clustersStatus.store.KeyFunc = clusters.KeyFunc ∧
      clustersStatus.store.NewFunc = clusters.NewFunc ∧
      clustersStatus.store.NewListFunc = clusters.NewListFunc ∧
      clustersStatus.store.PredicateFunc = clusters.PredicateFunc ∧
      clustersStatus.store.CreateStrategy = clusters.CreateStrategy ∧
      clustersStatus.store.DeleteStrategy = clusters.DeleteStrategy ∧
      (∀ ctx name, clustersStatus.store.KeyFunc ctx name = clusters.KeyFunc ctx name) ∧
      ∀ b ctx name, clustersStatus.Get b ctx name = clusters.Get b ctx name := by
  obtain ⟨hc, hs⟩ := NewStorage_ok d opts clusters clustersStatus h
  refine ⟨hs, ?_, ?_, ?_, ?_, ?_, ?_, ?_, ?_, ?_, ?_, ?_, ?_⟩
  · rw [hs]
  · rw [hc]; rfl
  · rw [hs]
  · rw [hs]
  · rw [hs]
  · rw [hs]
  · rw [hs]
  · rw [hs]
  · rw [hs]
  · rw [hs]
  · intro ctx name; rw [hs]
  · intro b ctx name
    unfold StatusREST.Get
    rw [hs]
    rfl

end cluster

namespace cluster

theorem KeyFunc_layout_witness :
    sample.clusters.KeyFunc sample.ctx "c1" =
        .ok ("/" ++ sample.options.RESTOptions.ResourcePrefix ++ "/" ++ "ns1" ++ "/" ++ "c1") ∧
      "/" ++ sample.options.RESTOptions.ResourcePrefix ++ "/" ++ "ns1" ++ "/" ++ "c1" =
        sample.clusters.KeyRootFunc sample.ctx ++ "/" ++ "c1" ∧
      (sample.clusters.KeyRootFunc sample.ctx).toList <+:
        (sample.clusters.KeyRootFunc sample.ctx ++ "/" ++ "c1").toList ∧
      sample.clusters.KeyRootFunc sample.ctx ≠
        sample.clusters.KeyRootFunc sample.ctx ++ "/" ++ "c1" :=
  KeyFunc_layout sample.deps sample.options sample.clusters sample.clustersStatus rfl
    sample.ctx "ns1" "c1" rfl (by decide) (by decide) (by decide) (by decide) (by decide)
    (by decide)

theorem KeyFunc_injective_witness :
    sample.clusters.KeyFunc { Namespace := some "a/b" } "c" = .ok "/clusters/a/b/c" ∧
      (({ Namespace := some "a/b" } : Context).Namespace =
          ({ Namespace := some "a/b" } : Context).Namespace ∧ "c" = "c") :=
  ⟨rfl, KeyFunc_injective sample.deps sample.options sample.clusters sample.clustersStatus rfl
    { Namespace := some "a/b" } { Namespace := some "a/b" } "c" "c" "/clusters/a/b/c" rfl rfl⟩

theorem StatusREST_store_eq_witness :
    NewStorage sample.deps sample.options = .ok (sample.clusters, sample.clustersStatus) ∧
      sample.clustersStatus.store.KeyFunc sample.ctx "c1" =
        sample.clusters.KeyFunc sample.ctx "c1" ∧
      sample.clustersStatus.Get sample.backend sample.ctx "c1" =
        sample.clusters.Get sample.backend sample.ctx "c1" :=
  have h := StatusREST_store_eq sample.deps sample.options sample.clusters
    sample.clustersStatus rfl
  ⟨rfl, h.2.2.2.2.2.2.2.2.2.2.2.1 sample.ctx "c1",
    h.2.2.2.2.2.2.2.2.2.2.2.2 sample.backend sample.ctx "c1"⟩

/-! ### Attributes and selection -/

theorem GetAttrs_ok {S T : Type} (c : boatswain.Cluster S T) :
    GetAttrs (Object.cluster c) =
      .ok (c.ObjectMeta.Labels,
        [("metadata.name", c.ObjectMeta.Name), ("metadata.namespace", c.ObjectMeta.Namespace)],
        c.ObjectMeta.Initializers.isSome) :=
  rfl

/-- C7: for every Cluster `c`, `GetAttrs` succeeds and returns `c`'s metadata labels, the
two-entry field set of `metadata.name` and `metadata.namespace`, and a flag that is true
exactly when `c`'s metadata Initializers is non-nil; equal clusters give equal results. -/
theorem GetAttrs_cluster {S T : Type} (c : boatswain.Cluster S T) :
    GetAttrs (Object.cluster c) =
        .ok (c.ObjectMeta.Labels,
          [("metadata.name", c.ObjectMeta.Name), ("metadata.namespace", c.ObjectMeta.Namespace)],
          c.ObjectMeta.Initializers.isSome) ∧
      (c.ObjectMeta.Initializers.isSome = true ↔ c.ObjectMeta.Initializers ≠ none) ∧
      ∀ c' : boatswain.Cluster S T, c' = c →
        GetAttrs (Object.cluster c') = GetAttrs (Object.cluster c) := by
  refine ⟨rfl, ?_, ?_⟩
  · cases c.ObjectMeta.Initializers <;> simp
  · rintro c' rfl
    rfl

theorem Match_matches_cluster {S T : Type} (label : labels.Selector) (field : fields.Selector)
    (c : boatswain.Cluster S T) :
    (Match label field).Matches (Object.cluster c) =
      .ok (c.ObjectMeta.Initializers.isNone && label.Matches c.ObjectMeta.Labels &&
        field.Matches
          [("metadata.name", c.ObjectMeta.Name),
            ("metadata.namespace", c.ObjectMeta.Namespace)]) := by
  have hattrs := GetAttrs_ok c
  unfold storage.SelectionPredicate.Matches storage.SelectionPredicate.Empty Match
  simp only [Bool.and_false, hattrs]
  cases c.ObjectMeta.Initializers <;> cases label.Matches c.ObjectMeta.Labels <;> simp

/-- C8, as stated, fails: with the label selector `env = prod`, cluster `p` carries the
label `env: prod` and matches both selectors, yet filtering `[p]` with `Match` keeps
nothing, because `p` has a pending initializer. -/
theorem Match_filter_counterexample :
    storage.filterList (Match (labels.SelectorFromPair "env" "prod") fields.Everything)
        [Object.cluster sample.p] ≠
      ([sample.p].filter fun c =>
        (labels.SelectorFromPair "env" "prod").Matches c.ObjectMeta.Labels &&
          fields.Everything.Matches
            [("metadata.name", c.ObjectMeta.Name),
              ("metadata.namespace", c.ObjectMeta.Namespace)]).map Object.cluster := by
  decide

/-- C8, amended: filtering a collection of Clusters with the predicate `Match L F` keeps
exactly those clusters without pending initializers for which `L` matches the labels and
`F` matches the `metadata.name` and `metadata.namespace` fields; with `L = (env = prod)`
over `a{env: prod}` and `b{env: dev}`, neither with initializers, the result is `[a]`,
also when listed through the cluster store. -/
theorem Match_filter {S T : Type} (label : labels.Selector) (field : fields.Selector)
    (cs : List (boatswain.Cluster S T)) :
    storage.filterList (Match label field) (cs.map Object.cluster) =
        (cs.filter fun c =>
          c.ObjectMeta.Initializers.isNone && label.Matches c.ObjectMeta.Labels &&
            field.Matches
              [("metadata.name", c.ObjectMeta.Name),
                ("metadata.namespace", c.ObjectMeta.Namespace)]).map Object.cluster ∧
      storage.filterList (Match (labels.SelectorFromPair "env" "prod") fields.Everything)
        [Object.cluster sample.a, Object.cluster sample.b] = [Object.cluster sample.a] ∧
      sample.clusters.List sample.listBackend sample.ctx
        (labels.SelectorFromPair "env" "prod") fields.Everything false =
          [Object.cluster sample.a] := by
  refine ⟨?_, ?_, by decide⟩
  · unfold storage.filterList
    induction cs with
    | nil => rfl
    | cons c rest ih =>
      simp only [List.map_cons, List.filter_cons, Match_matches_cluster]
      split <;> simp [ih]
  · decide

/-- C9: `CheckObject` returns the error `errNotACluster` exactly when the object is not a
Cluster and no error exactly when it is, `GetAttrs` returns an error on exactly the same
objects, the objects built by `NewSingular` and `EmptyObject` pass `CheckObject`, and the
object built by `NewList` does not. -/
theorem CheckObject_iff {S T : Type} [Inhabited S] [Inhabited T] (obj : Object S T) :
    (CheckObject obj = some errNotACluster ↔ ¬ ∃ c, obj = Object.cluster c) ∧
      (CheckObject obj = none ↔ ∃ c, obj = Object.cluster c) ∧
      ((∃ err, GetAttrs obj = .error err) ↔ CheckObject obj ≠ none) ∧
      (∀ ns name : String, CheckObject (NewSingular ns name : Object S T) = none) ∧
      CheckObject (EmptyObject : Object S T) = none ∧
      CheckObject (NewList : Object S T) = some errNotACluster := by
  refine ⟨?_, ?_, ?_, fun _ _ => rfl, rfl, rfl⟩
  · cases obj <;> simp [CheckObject]
  · cases obj <;> simp [CheckObject]
  · cases obj <;> simp [CheckObject, GetAttrs]

end cluster

/-! ### NodeGroup validation -/

namespace validation

theorem ValidateNodeGroup_eq {S T : Type} (lib : apivalidation.Library)
    (g : boatswain.NodeGroup S T) :
    ValidateNodeGroup lib g =
      apivalidation.ValidateObjectMeta lib g.ObjectMeta true
        (apivalidation.NameIsDNSSubdomain lib) "metadata" := by
  unfold ValidateNodeGroup validateNodeGroupSpec ValidateNodeGroupName field.NewPath
  simp

/-- C10: `ValidateNodeGroup` returns exactly the object-metadata validation errors under
path `metadata` (namespace required, names validated as DNS subdomains); the list holds
the required-error for `metadata.namespace` when the namespace is empty, it is non-empty
when the namespace is empty or the name is not a valid DNS subdomain, and two NodeGroups
with equal metadata get equal results whatever their Spec. -/
theorem ValidateNodeGroup_metadata {S T : Type} (lib : apivalidation.Library)
    (g : boatswain.NodeGroup S T) :
    ValidateNodeGroup lib g =
        apivalidation.ValidateObjectMeta lib g.ObjectMeta true
          (apivalidation.NameIsDNSSubdomain lib) "metadata" ∧
      (g.ObjectMeta.Namespace = "" →
        field.Required "metadata.namespace" "" ∈ ValidateNodeGroup lib g) ∧
      (g.ObjectMeta.Namespace = "" ∨ utilvalidation.IsDNS1123Subdomain g.ObjectMeta.Name ≠ [] →
        ValidateNodeGroup lib g ≠ []) ∧
      ∀ g' : boatswain.NodeGroup S T, g'.ObjectMeta = g.ObjectMeta →
        ValidateNodeGroup lib g' = ValidateNodeGroup lib g := by
  have hns : g.ObjectMeta.Namespace = "" →
      field.Required "metadata.namespace" "" ∈ ValidateNodeGroup lib g := by
    intro h
    rw [ValidateNodeGroup_eq]
    unfold apivalidation.ValidateObjectMeta
    have hl : g.ObjectMeta.Namespace.length = 0 := by rw [h]; rfl
    have hp : field.Child "metadata" "namespace" = "metadata.namespace" := by decide
    simp [hl, hp]
  refine ⟨ValidateNodeGroup_eq lib g, hns, ?_, ?_⟩
  · rintro (h | h)
    · exact List.ne_nil_of_mem (hns h)
    · rw [ValidateNodeGroup_eq]
      have hname : apivalidation.NameIsDNSSubdomain lib g.ObjectMeta.Name false =
          utilvalidation.IsDNS1123Subdomain g.ObjectMeta.Name := rfl
      unfold apivalidation.ValidateObjectMeta
      by_cases h1 : (g.ObjectMeta.GenerateName.length != 0) = true <;>
        by_cases h2 : (g.ObjectMeta.Name.length == 0) = true <;>
        by_cases h3 : (g.ObjectMeta.Namespace.length == 0) = true <;>
        simp [h1, h2, h3, hname, h]
  · intro g' hg
    rw [ValidateNodeGroup_eq, ValidateNodeGroup_eq, hg]

theorem ValidateNodeGroup_metadata_witness :
    field.Required "metadata.namespace" "" ∈ ValidateNodeGroup sample.lib sample.noNamespace ∧
      ValidateNodeGroup sample.lib sample.badName ≠ [] ∧
      ValidateNodeGroup sample.lib sample.goodGroup = [] :=
  ⟨(ValidateNodeGroup_metadata sample.lib sample.noNamespace).2.1 rfl,
    (ValidateNodeGroup_metadata sample.lib sample.badName).2.2.1 (Or.inr (by decide)),
    by decide⟩

end validation

/-! ### Errors of the storage provider -/

namespace provider

theorem v1alpha1Storage_error {R ST St RC E : Type} (d : Deps R ST St)
    (p : StorageProvider ST RC) (restOptionsGetter : RESTOptionsGetter E R) (err : E)
    (h : restOptionsGetter.GetRESTOptions (boatswain.Resource d.GroupName "hosts") =
      .error err) :
    v1alpha1Storage d p restOptionsGetter = .error err := by
  unfold v1alpha1Storage
  rw [h]

theorem NewRESTStorage_of_storage {R ST St RC E : Type} (d : Deps R ST St)
    (p : StorageProvider ST RC) (restOptionsGetter : RESTOptionsGetter E R) :
    NewRESTStorage d p restOptionsGetter =
      match v1alpha1Storage d p restOptionsGetter with
      | .error err => .error err
      | .ok storage =>
        .ok
          { GroupName := d.GroupName
            GroupVersion := d.SchemeGroupVersion
            VersionedResourcesStorageMap := [(d.SchemeGroupVersion.Version, storage)] } :=
  rfl

/-- C11: `NewRESTStorage` returns an error exactly when `GetRESTOptions` for the resource
`hosts` fails; then it returns that same error and no APIGroupInfo, and `v1alpha1Storage`
returns that error and no map. Otherwise both succeed, and the returned APIGroupInfo has
a `VersionedResourcesStorageMap` with exactly one entry, which maps the version of
`SchemeGroupVersion` to the storage map. -/
theorem NewRESTStorage_error_iff {R ST St RC E : Type} (d : Deps R ST St)
    (p : StorageProvider ST RC) (restOptionsGetter : RESTOptionsGetter E R) :
    ((∃ err, NewRESTStorage d p restOptionsGetter = .error err) ↔
        ∃ err, restOptionsGetter.GetRESTOptions (boatswain.Resource d.GroupName "hosts") =
          .error err) ∧
      (∀ err, restOptionsGetter.GetRESTOptions (boatswain.Resource d.GroupName "hosts") =
          .error err →
        NewRESTStorage d p restOptionsGetter = .error err ∧
          v1alpha1Storage d p restOptionsGetter = .error err) ∧
      ∀ hostRESTOptions,
        restOptionsGetter.GetRESTOptions (boatswain.Resource d.GroupName "hosts") =
          .ok hostRESTOptions →
        ∃ storage info,
          v1alpha1Storage d p restOptionsGetter = .ok storage ∧
            NewRESTStorage d p restOptionsGetter = .ok info ∧
            info.GroupVersion = d.SchemeGroupVersion ∧
            info.VersionedResourcesStorageMap = [(d.SchemeGroupVersion.Version, storage)] ∧
            info.VersionedResourcesStorageMap.map Prod.fst = [d.SchemeGroupVersion.Version] := by
  have herr : ∀ err,
      restOptionsGetter.GetRESTOptions (boatswain.Resource d.GroupName "hosts") = .error err →
      NewRESTStorage d p restOptionsGetter = .error err ∧
        v1alpha1Storage d p restOptionsGetter = .error err := by
    intro err h
    have hs := v1alpha1Storage_error d p restOptionsGetter err h
    refine ⟨?_, hs⟩
    rw [NewRESTStorage_of_storage, hs]
  have hok : ∀ hostRESTOptions,
      restOptionsGetter.GetRESTOptions (boatswain.Resource d.GroupName "hosts") =
        .ok hostRESTOptions →
      ∃ storage info,
        v1alpha1Storage d p restOptionsGetter = .ok storage ∧
          NewRESTStorage d p restOptionsGetter = .ok info ∧
          info.GroupVersion = d.SchemeGroupVersion ∧
          info.VersionedResourcesStorageMap = [(d.SchemeGroupVersion.Version, storage)] ∧
          info.VersionedResourcesStorageMap.map Prod.fst = [d.SchemeGroupVersion.Version] := by
    intro hostRESTOptions h
    have hs := v1alpha1Storage_ok d p restOptionsGetter hostRESTOptions h
    generalize d.hostNewStorage
      { RESTOptions := hostRESTOptions, Capacity := 1000, StorageType := p.StorageType } = pair
      at hs
    refine ⟨[("hosts", pair.1), ("hosts/status", pair.2)],
      { GroupName := d.GroupName
        GroupVersion := d.SchemeGroupVersion
        VersionedResourcesStorageMap :=
          [(d.SchemeGroupVersion.Version, [("hosts", pair.1), ("hosts/status", pair.2)])] },
      hs, ?_, rfl, rfl, rfl⟩
    rw [NewRESTStorage_of_storage, hs]
  refine ⟨⟨?_, ?_⟩, herr, hok⟩
  · rintro ⟨err, he⟩
    cases hg : restOptionsGetter.GetRESTOptions (boatswain.Resource d.GroupName "hosts") with
    | error e => exact ⟨e, rfl⟩
    | ok r =>
      obtain ⟨storage, info, _, hinfo, _⟩ := hok r hg
      rw [hinfo] at he
      cases he
  · rintro ⟨err, he⟩
    exact ⟨err, (herr err he).1⟩

theorem NewRESTStorage_error_iff_witness :
    NewRESTStorage sample.providerDeps sample.storageProvider sample.failingGetter =
        .error "no storage configured for hosts" ∧
      v1alpha1Storage sample.providerDeps sample.storageProvider sample.failingGetter =
        .error "no storage configured for hosts" :=
  (NewRESTStorage_error_iff sample.providerDeps sample.storageProvider
    sample.failingGetter).2.1 "no storage configured for hosts" rfl

end provider

/-! ### NodeGroup update validation -/

namespace validation

/-- C12: for every pair of NodeGroups, `ValidateNodeGroupStatusUpdate` returns exactly the
error list of `ValidateNodeGroupUpdate`, and that list is empty: neither validator rejects
an update, whatever the Spec and Status of the new and the old object. -/
theorem ValidateNodeGroupStatusUpdate_eq {S T : Type} (new old : boatswain.NodeGroup S T) :
    ValidateNodeGroupStatusUpdate new old = ValidateNodeGroupUpdate new old ∧
      ValidateNodeGroupUpdate new old = [] ∧
      ValidateNodeGroupStatusUpdate new old = [] := by
  refine ⟨?_, rfl, ?_⟩
  · unfold ValidateNodeGroupStatusUpdate
    simp
  · unfold ValidateNodeGroupStatusUpdate ValidateNodeGroupUpdate
    simp

theorem ValidateNodeGroupStatusUpdate_eq_witness :
    sample.changedGroup.Spec ≠ sample.goodGroup.Spec ∧
      ValidateNodeGroupStatusUpdate sample.changedGroup sample.goodGroup =
        ValidateNodeGroupUpdate sample.changedGroup sample.goodGroup ∧
      ValidateNodeGroupUpdate sample.changedGroup sample.goodGroup = [] ∧
      ValidateNodeGroupStatusUpdate sample.changedGroup sample.goodGroup = [] :=
  ⟨by decide, ValidateNodeGroupStatusUpdate_eq sample.changedGroup sample.goodGroup⟩

end validation

end Boatswain
